import Mathlib

/-!
Verification development for the `lamatrix` repository, file
`src/lamatrix/generator.py`: the abstract `Generator` base class with
prior validation, a weighted-least-squares `_fit` with Gaussian priors,
`evaluate`/`mu`/`sigma`, and significant-figure formatting.

The embedding works at two levels:

* a scalar IEEE-style float model `PyFloat` (rationals extended with
  `inf`, `-inf` and `nan`), used for the parts of the code whose whole
  point is special-value handling: `format_significant_figures`
  (lines 69-91) and the `np.nan_to_num(prior_mu / prior_sigma**2)`
  right-hand-side term of `_fit` (line 140).  Rounding of finite float
  arithmetic is not modelled (finite values are exact rationals); the
  special-value algebra (inf/nan propagation, `nan_to_num`) follows
  numpy and IEEE-754 semantics.

* an exact linear-algebra model over `ℚ` of `_validate_priors`
  (lines 20-41), `_fit` (lines 124-143), `mu`/`sigma` (lines 145-151)
  and `evaluate` (lines 153-158).  Prior sigmas live in `Qinf`
  (rationals plus `+∞`), so that the float identities `1/inf**2 = 0`
  and `x/inf**2 = 0` used by the code are represented exactly.
-/

namespace Lamatrix

/-- Python exception model: `ValueError(msg)` and `numpy.linalg.LinAlgError`. -/
inductive PyErr where
  | valueError (msg : String)
  | linAlgError
deriving DecidableEq, Repr

/-! ## Scalar float model -/

/-- IEEE-style double model: exact finite rationals plus `inf`, `-inf`, `nan`.
Finite arithmetic is exact (no rounding/overflow); special values follow
IEEE-754 / numpy semantics. -/
inductive PyFloat where
  | fin (q : ℚ)
  | inf
  | neginf
  | nan
deriving DecidableEq, Repr

namespace PyFloat

/-- Model of `math.isinf`. -/
def isinf : PyFloat → Bool
  | inf => true
  | neginf => true
  | _ => false

/-- Model of `math.isnan`. -/
def isnan : PyFloat → Bool
  | nan => true
  | _ => false

/-- Extract the rational value of a finite float (junk value 0 elsewhere;
only used under a finiteness guard, as in the source). -/
def toRat : PyFloat → ℚ
  | fin q => q
  | _ => 0

/-- IEEE-754 multiplication on the special-value algebra; finite times
finite is exact. -/
def mul : PyFloat → PyFloat → PyFloat
  | nan, _ => nan
  | _, nan => nan
  | inf, inf => inf
  | inf, neginf => neginf
  | neginf, inf => neginf
  | neginf, neginf => inf
  | inf, fin q => if q = 0 then nan else if 0 < q then inf else neginf
  | fin q, inf => if q = 0 then nan else if 0 < q then inf else neginf
  | neginf, fin q => if q = 0 then nan else if 0 < q then neginf else inf
  | fin q, neginf => if q = 0 then nan else if 0 < q then neginf else inf
  | fin a, fin b => fin (a * b)

/-- IEEE-754 division on the special-value algebra; finite by nonzero
finite is exact.  Division of a nonzero finite by `0` gives a signed
infinity (numpy emits a warning but returns the infinity), `0/0` gives
`nan`, `x/inf` gives `0` for finite `x`, `inf/inf` gives `nan`. -/
def div : PyFloat → PyFloat → PyFloat
  | nan, _ => nan
  | _, nan => nan
  | inf, inf => nan
  | inf, neginf => nan
  | neginf, inf => nan
  | neginf, neginf => nan
  | inf, fin q => if 0 ≤ q then inf else neginf
  | neginf, fin q => if 0 ≤ q then neginf else inf
  | fin _, inf => fin 0
  | fin _, neginf => fin 0
  | fin a, fin b =>
      if b = 0 then (if a = 0 then nan else if 0 < a then inf else neginf)
      else fin (a / b)

end PyFloat

/-- Largest finite IEEE double, `1.7976931348623157e308`, exactly
`(2^53 - 1) * 2^971`: the value `np.nan_to_num` substitutes for `+inf`. -/
def maxFloat : ℚ := (2 ^ 53 - 1) * 2 ^ 971

/-- Model of `np.nan_to_num` with default arguments: `nan ↦ 0`,
`+inf ↦ maxFloat`, `-inf ↦ -maxFloat`, finite values unchanged. -/
def npNanToNum : PyFloat → PyFloat
  | PyFloat.nan => PyFloat.fin 0
  | PyFloat.inf => PyFloat.fin maxFloat
  | PyFloat.neginf => PyFloat.fin (-maxFloat)
  | PyFloat.fin q => PyFloat.fin q

/-- One component of the prior term of the right-hand side in
`Generator._fit` (generator.py line 140):
`np.nan_to_num(self.prior_mu / self.prior_sigma ** 2)`. -/
def priorRhsTerm (mu sigma : PyFloat) : PyFloat :=
  npNanToNum (mu.div (sigma.mul sigma))

/-! ## Significant-figure formatting (generator.py lines 69-91) -/

/-- Information content of Python's fixed-point formatting
`f"{x:.kf}"`: the rounded value and the number of decimal places shown.
The exact decimal digit string is determined by this data. -/
structure Formatted where
  val : ℚ
  decimals : ℕ
deriving DecidableEq, Repr

/-- Model of Python fixed-point formatting `f"{x:.pf}"`.  A negative
precision makes the format specifier (e.g. `".-1f"`) invalid and Python
raises `ValueError`; otherwise the value is rounded to `p` decimal
places.  (Python rounds half-to-even on the binary value; the rounding
mode is immaterial to the claims and `round` is used here.) -/
def formatFixed (x : ℚ) (prec : ℤ) : Except PyErr Formatted :=
  if 0 ≤ prec then
    Except.ok ⟨(round (x * 10 ^ prec.toNat) : ℤ) / (10 : ℚ) ^ prec.toNat, prec.toNat⟩
  else Except.error (PyErr.valueError "Format specifier missing precision")

/-- Result of `format_significant_figures`: either the fixed placeholder
pair `("0", "\\infty")` or a pair of formatted numbers. -/
inductive SigFigs where
  | placeholder
  | pair (meanF errF : Formatted)
deriving DecidableEq, Repr

/-- Model of `Generator.format_significant_figures` (generator.py
lines 69-91).  If either input is infinite or nan the fixed placeholder
pair is returned.  Otherwise `sig_figures = -floor(log10(abs(error)))`
(0 when the error is exactly 0; `Int.log 10` is the exact
floor-of-log-base-10 on rationals) and both numbers are formatted with
`sig_figures` decimal places, the mean first. -/
def format_significant_figures (mean error : PyFloat) : Except PyErr SigFigs :=
  if mean.isinf || error.isinf || mean.isnan || error.isnan then
    Except.ok SigFigs.placeholder
  else
    let m := mean.toRat
    let e := error.toRat
    let sig_figures : ℤ := if e = 0 then 0 else -(Int.log 10 |e|)
    match formatFixed m sig_figures with
    | Except.error er => Except.error er
    | Except.ok fm =>
      match formatFixed e sig_figures with
      | Except.error er => Except.error er
      | Except.ok fe => Except.ok (SigFigs.pair fm fe)

/-! ## Prior validation (generator.py lines 20-41) -/

/-- A Python argument passed as `prior_mu` or `prior_sigma`: `None`, a
scalar (`float`/`int`), a sequence (`list`/`np.ndarray`/`tuple`), or a
value of any other type. -/
inductive PriorArg (α : Type) where
  | noneArg
  | scalar (x : α)
  | seq (xs : List α)
  | other
deriving DecidableEq

/-- Rationals extended with `+∞`, the value `np.inf` used for
uninformative prior sigmas. -/
inductive Qinf where
  | fin (q : ℚ)
  | inf
deriving DecidableEq, Repr

/-- Float value of `1 / sigma ** 2` for a prior sigma (generator.py
line 136): exactly `0` when the sigma is infinite.  (For `sigma = 0`
the float result is `inf`; theorems about `_fit` therefore carry a
`sigma ≠ 0` fidelity hypothesis.) -/
def qinfInvSq : Qinf → ℚ
  | Qinf.inf => 0
  | Qinf.fin q => (q ^ 2)⁻¹

/-- Float value of `np.nan_to_num(mu / sigma ** 2)` for one coefficient
(generator.py line 140): exactly `0` when the sigma is infinite, the
exact ratio otherwise.  (For `sigma = 0` the float behaviour is modelled
by `priorRhsTerm`; theorems about `_fit` carry a `sigma ≠ 0`
hypothesis.) -/
def priorTermQ (mu : ℚ) : Qinf → ℚ
  | Qinf.inf => 0
  | Qinf.fin s => mu / s ^ 2

namespace Generator

/-- Model of the `prior_mu` half of `Generator._validate_priors`
(generator.py lines 21-30).  The result is the final value of the
`self.prior_mu` attribute: `some v` when the code assigns it, `none`
when the code falls through without assigning it (which happens for a
sequence whose length differs from `width`, since the `else: raise`
is attached to the `isinstance` test, not to the length test). -/
def validate_prior_mu (w : ℕ) : PriorArg ℚ → Except PyErr (Option (Fin w → ℚ))
  | PriorArg.noneArg => Except.ok (some fun _ => 0)
  | PriorArg.scalar x => Except.ok (some fun _ => x)
  | PriorArg.seq xs =>
      if h : xs.length = w then Except.ok (some fun i => xs.get (Fin.cast h.symm i))
      else Except.ok none
  | PriorArg.other => Except.error (PyErr.valueError "Can not parse `prior_mu`.")

/-- Model of the `prior_sigma` half of `Generator._validate_priors`
(generator.py lines 32-41), with the same attribute-left-unset
behaviour for a wrong-length sequence.  `None` assigns
`np.ones(width) * np.inf`. -/
def validate_prior_sigma (w : ℕ) : PriorArg Qinf → Except PyErr (Option (Fin w → Qinf))
  | PriorArg.noneArg => Except.ok (some fun _ => Qinf.inf)
  | PriorArg.scalar x => Except.ok (some fun _ => x)
  | PriorArg.seq xs =>
      if h : xs.length = w then Except.ok (some fun i => xs.get (Fin.cast h.symm i))
      else Except.ok none
  | PriorArg.other => Except.error (PyErr.valueError "Can not parse `prior_sigma`.")

/-- Model of `Generator._validate_priors` (generator.py lines 20-41):
the `prior_mu` block runs first and its exception aborts before the
`prior_sigma` block. -/
def validate_priors (w : ℕ) (pm : PriorArg ℚ) (ps : PriorArg Qinf) :
    Except PyErr (Option (Fin w → ℚ) × Option (Fin w → Qinf)) :=
  match validate_prior_mu w pm with
  | Except.error e => Except.error e
  | Except.ok m =>
    match validate_prior_sigma w ps with
    | Except.error e => Except.error e
    | Except.ok s => Except.ok (m, s)

end Generator

/-! ## Generator state and the `_fit` algorithm (generator.py lines 124-158) -/

/-- Attribute state of a `Generator` instance whose priors were
successfully assigned.  `fit_mu`, `fit_sigma`, `cov` and `data_shape`
model attributes that are `None` (or unset) until a fit stores them;
`data_shape` is the numpy shape tuple of the last fitted data. -/
structure GenState (w : ℕ) where
  prior_mu : Fin w → ℚ
  prior_sigma : Fin w → Qinf
  fit_mu : Option (Fin w → ℚ)
  fit_sigma : Option (Fin w → Qinf)
  cov : Option (Matrix (Fin w) (Fin w) ℚ)
  data_shape : Option (List ℕ)

/-- Model of `np.linalg.inv` in exact arithmetic: raises
`LinAlgError` exactly on a singular matrix, otherwise returns the
inverse (computed here as `det⁻¹ • adjugate`). -/
def npLinalgInv {w : ℕ} (M : Matrix (Fin w) (Fin w) ℚ) :
    Except PyErr (Matrix (Fin w) (Fin w) ℚ) :=
  if M.det = 0 then Except.error PyErr.linAlgError
  else Except.ok (M.det⁻¹ • M.adjugate)

/-- Model of `np.linalg.solve` in exact arithmetic: raises
`LinAlgError` exactly on a singular matrix, otherwise returns the
unique solution of `M x = b` (computed by Cramer's rule, a distinct
code path from `npLinalgInv`, as in the source). -/
def npLinalgSolve {w : ℕ} (M : Matrix (Fin w) (Fin w) ℚ) (b : Fin w → ℚ) :
    Except PyErr (Fin w → ℚ) :=
  if M.det = 0 then Except.error PyErr.linAlgError
  else Except.ok (M.det⁻¹ • M.adjugate.mulVec b)

namespace Generator

/-- The normal-equation matrix `sigma_w_inv` of `Generator._fit`
(generator.py lines 134-136):
`X[mask].T.dot(X[mask] / errors.ravel()[mask, None] ** 2) + np.diag(1 / prior_sigma ** 2)`,
written as a sum over the rows selected by the boolean mask. -/
def normalMatrix {m w : ℕ} (X : Matrix (Fin m) (Fin w) ℚ) (err : Fin m → ℚ)
    (mask : Fin m → Bool) (ps : Fin w → Qinf) : Matrix (Fin w) (Fin w) ℚ :=
  Matrix.of fun i j =>
    (∑ r, if mask r then X r i * X r j / err r ^ 2 else 0) +
      (if i = j then qinfInvSq (ps i) else 0)

/-- The right-hand side `B` of `Generator._fit` (generator.py
lines 138-140):
`X[mask].T.dot(data.ravel()[mask] / errors.ravel()[mask] ** 2) + np.nan_to_num(prior_mu / prior_sigma ** 2)`. -/
def normalRhs {m w : ℕ} (X : Matrix (Fin m) (Fin w) ℚ) (data err : Fin m → ℚ)
    (mask : Fin m → Bool) (pm : Fin w → ℚ) (ps : Fin w → Qinf) : Fin w → ℚ :=
  fun i =>
    (∑ r, if mask r then X r i * (data r / err r ^ 2) else 0) + priorTermQ (pm i) (ps i)

/-- Model of `Generator._fit` (generator.py lines 124-143) as explicit
state passing.  The design matrix `X` stands for
`self.design_matrix(*args, **kwargs)` (supplied by the concrete
subclass); `data` is the observed array, carried as its flat vector
together with its shape; `errors` and `mask` default to ones and
all-`True`.  The returned state is the instance state after the call,
including any attributes assigned before an exception: `data_shape` is
assigned (line 132) before the inversion can raise, and `cov` (line
137) before the solve.  The source returns the pair
`(fit_mu, fit_sigma)` where `fit_sigma = self.cov.diagonal() ** 0.5`
(line 142); the square root is modelled by `fitSigmaOf` below, so the
model returns `fit_mu` and the state holding `cov`. -/
def _fit {m w : ℕ} (st : GenState w) (shape : List ℕ) (data : Fin shape.prod → ℚ)
    (errors : Option (Fin m → ℚ)) (mask : Option (Fin m → Bool))
    (X : Matrix (Fin m) (Fin w) ℚ) : GenState w × Except PyErr (Fin w → ℚ) :=
  if h : shape.prod = m then
    let dataF : Fin m → ℚ := fun r => data (Fin.cast h.symm r)
    let err : Fin m → ℚ := errors.getD fun _ => 1
    let msk : Fin m → Bool := mask.getD fun _ => true
    let st1 : GenState w := { st with data_shape := some shape }
    let A := normalMatrix X err msk st.prior_sigma
    match npLinalgInv A with
    | Except.error e => (st1, Except.error e)
    | Except.ok covM =>
      let st2 : GenState w := { st1 with cov := some covM }
      let B := normalRhs X dataF err msk st.prior_mu st.prior_sigma
      match npLinalgSolve A B with
      | Except.error e => (st2, Except.error e)
      | Except.ok fitMu => (st2, Except.ok fitMu)
  else (st, Except.error (PyErr.valueError ("Data must have shape " ++ toString m)))

/-- The `fit_sigma = self.cov.diagonal() ** 0.5` step of
`Generator._fit` (generator.py line 142): the entrywise real square
root of the diagonal of the posterior covariance. -/
noncomputable def fitSigmaOf {w : ℕ} (covM : Matrix (Fin w) (Fin w) ℚ) : Fin w → ℝ :=
  fun i => Real.sqrt ((covM i i : ℚ) : ℝ)

/-- Model of the property `Generator.mu` (generator.py lines 145-147):
`self.prior_mu if self.fit_mu is None else self.fit_mu`. -/
def mu {w : ℕ} (st : GenState w) : Fin w → ℚ :=
  match st.fit_mu with
  | none => st.prior_mu
  | some f => f

/-- Model of the property `Generator.sigma` (generator.py
lines 149-151): `self.prior_sigma if self.fit_sigma is None else self.fit_sigma`. -/
def sigma {w : ℕ} (st : GenState w) : Fin w → Qinf :=
  match st.fit_sigma with
  | none => st.prior_sigma
  | some f => f

end Generator

/-- Result of `Generator.evaluate`: either an array reshaped to a
stored shape, or the flat vector. -/
inductive EvalOut (m : ℕ) where
  | reshaped (shape : List ℕ) (v : Fin m → ℚ)
  | flat (v : Fin m → ℚ)

/-- The underlying flat vector of an `evaluate` result. -/
def EvalOut.vec {m : ℕ} : EvalOut m → (Fin m → ℚ)
  | EvalOut.reshaped _ v => v
  | EvalOut.flat v => v

namespace Generator

/-- Model of `Generator.evaluate` (generator.py lines 153-158): build
the design matrix, multiply by the current coefficients `mu`; if
`data_shape` is set and the design matrix's row count equals
`np.prod(data_shape)`, reshape to `data_shape`, else return the flat
vector. -/
def evaluate {m w : ℕ} (st : GenState w) (X : Matrix (Fin m) (Fin w) ℚ) : EvalOut m :=
  match st.data_shape with
  | some ds =>
      if m = ds.prod then EvalOut.reshaped ds (X.mulVec (mu st))
      else EvalOut.flat (X.mulVec (mu st))
  | none => EvalOut.flat (X.mulVec (mu st))

end Generator

/-! ## Specification-side formulations for the normal equations -/

/-- The masked design matrix `X[mask]`: rows of `X` restricted to the
indices the boolean mask selects. -/
def maskedX {m w : ℕ} (X : Matrix (Fin m) (Fin w) ℚ) (mask : Fin m → Bool) :
    Matrix {r : Fin m // mask r = true} (Fin w) ℚ :=
  Matrix.of fun r i => X r.1 i

/-- Specification formulation of the normal-equation matrix, following
the spec text: `A = Xᵗ · diag(1/errors²) · X + diag(1/prior_sigma²)`
with `X` and `errors` restricted to the masked rows. -/
def normalMatrixSpec {m w : ℕ} (X : Matrix (Fin m) (Fin w) ℚ) (err : Fin m → ℚ)
    (mask : Fin m → Bool) (ps : Fin w → Qinf) : Matrix (Fin w) (Fin w) ℚ :=
  (maskedX X mask).transpose * Matrix.diagonal (fun r => 1 / err r.1 ^ 2) * maskedX X mask +
    Matrix.diagonal fun i => qinfInvSq (ps i)

/-- Specification formulation of the right-hand side, following the
spec text: `b = Xᵗ · (data/errors²) + prior_mu/prior_sigma²` over the
masked rows, the prior ratio taken as 0 for infinite sigma. -/
def normalRhsSpec {m w : ℕ} (X : Matrix (Fin m) (Fin w) ℚ) (data err : Fin m → ℚ)
    (mask : Fin m → Bool) (pm : Fin w → ℚ) (ps : Fin w → Qinf) : Fin w → ℚ :=
  (maskedX X mask).transpose.mulVec (fun r => data r.1 / err r.1 ^ 2) +
    fun i => priorTermQ (pm i) (ps i)

/-! ## Concrete example instances (used by witnesses and counterexamples) -/

/-- A freshly constructed width-1 generator with default priors
(`prior_mu = [0.]`, `prior_sigma = [inf]`) and no fit performed. -/
def st0 : GenState 1 :=
  ⟨fun _ => 0, fun _ => Qinf.inf, none, none, none, none⟩

/-- A width-1 generator that has recorded a fit of data of shape
`(2,)`, with `fit_mu = [5.]` and `fit_sigma = [1.]`. -/
def stFitted : GenState 1 :=
  ⟨fun _ => 0, fun _ => Qinf.inf, some fun _ => 5, some fun _ => Qinf.fin 1,
    some (Matrix.of fun _ _ => 1), some [2]⟩

/-- A 2-row, 1-column design matrix of ones (the `width = 1` constant
model of the spec's end-to-end example). -/
def Xones : Matrix (Fin 2) (Fin 1) ℚ := Matrix.of fun _ _ => 1

/-- A singular 1-row, 1-column design matrix (a column of zeros), which
together with an uninformative prior makes the normal-equation matrix
singular. -/
def Xzero : Matrix (Fin 1) (Fin 1) ℚ := Matrix.of fun _ _ => 0

end Lamatrix

namespace Lamatrix

/-! ## Helper lemmas -/

/-- Summing a function over the subtype selected by a boolean mask is
the same as summing its masked indicator over everything. -/
theorem sum_subtype_mask {m : ℕ} (mask : Fin m → Bool) (g : Fin m → ℚ) :
    (∑ r : {r : Fin m // mask r = true}, g r.1) = ∑ r, if mask r then g r else 0 := by
  rw [← Finset.sum_subtype (Finset.univ.filter fun r => mask r = true)
      (fun x => by simp) g]
  rw [Finset.sum_filter]

/-- The code's row-masked sum formulation of the normal-equation matrix
agrees with the spec's matrix-product formulation
`Xᵗ·diag(1/errors²)·X + diag(1/prior_sigma²)` over the masked rows. -/
theorem normalMatrix_eq_spec {m w : ℕ} (X : Matrix (Fin m) (Fin w) ℚ) (err : Fin m → ℚ)
    (mask : Fin m → Bool) (ps : Fin w → Qinf) :
    Generator.normalMatrix X err mask ps = normalMatrixSpec X err mask ps := by
  ext i j
  have hspec : normalMatrixSpec X err mask ps i j =
      (∑ r : {r : Fin m // mask r = true}, X r.1 i * (1 / err r.1 ^ 2) * X r.1 j) +
        (if i = j then qinfInvSq (ps i) else 0) := by
    simp only [normalMatrixSpec, Matrix.add_apply, Matrix.diagonal_apply]
    congr 1
    rw [Matrix.mul_apply]
    refine Finset.sum_congr rfl fun r _ => ?_
    rw [Matrix.mul_diagonal]
    simp [maskedX]
  rw [hspec, sum_subtype_mask mask fun r => X r i * (1 / err r ^ 2) * X r j]
  simp only [Generator.normalMatrix, Matrix.of_apply]
  congr 1
  refine Finset.sum_congr rfl fun r _ => ?_
  by_cases hr : mask r <;> simp [hr]
  ring

/-- The code's row-masked sum formulation of the right-hand side agrees
with the spec's `Xᵗ·(data/errors²) + prior_mu/prior_sigma²` over the
masked rows. -/
theorem normalRhs_eq_spec {m w : ℕ} (X : Matrix (Fin m) (Fin w) ℚ) (data err : Fin m → ℚ)
    (mask : Fin m → Bool) (pm : Fin w → ℚ) (ps : Fin w → Qinf) :
    Generator.normalRhs X data err mask pm ps = normalRhsSpec X data err mask pm ps := by
  funext i
  simp only [Generator.normalRhs, normalRhsSpec, Pi.add_apply, Matrix.mulVec,
    Matrix.dotProduct, Matrix.transpose_apply, maskedX, Matrix.of_apply]
  rw [sum_subtype_mask mask fun r => X r i * (data r / err r ^ 2)]

/-- On a nonsingular input `np.linalg.inv` returns `det⁻¹ • adjugate`. -/
theorem npLinalgInv_eq_ok {w : ℕ} {M : Matrix (Fin w) (Fin w) ℚ} (h : M.det ≠ 0) :
    npLinalgInv M = Except.ok (M.det⁻¹ • M.adjugate) := by
  unfold npLinalgInv
  rw [if_neg h]

/-- On a singular input `np.linalg.inv` raises `LinAlgError`. -/
theorem npLinalgInv_eq_error {w : ℕ} {M : Matrix (Fin w) (Fin w) ℚ} (h : M.det = 0) :
    npLinalgInv M = Except.error PyErr.linAlgError := by
  unfold npLinalgInv
  rw [if_pos h]

/-- On a nonsingular input `np.linalg.solve` returns the Cramer
solution `det⁻¹ • adjugate · b`. -/
theorem npLinalgSolve_eq_ok {w : ℕ} {M : Matrix (Fin w) (Fin w) ℚ} (b : Fin w → ℚ)
    (h : M.det ≠ 0) :
    npLinalgSolve M b = Except.ok (M.det⁻¹ • M.adjugate.mulVec b) := by
  unfold npLinalgSolve
  rw [if_neg h]

/-! ## Claim theorems -/

/-- C4: for every width `w`, constructing with `prior_mu = None` and
`prior_sigma = None` assigns `prior_mu` the all-zeros vector of length
`w` and `prior_sigma` the length-`w` vector with every entry `+inf`. -/
theorem C4_default_priors (w : ℕ) :
    Generator.validate_priors w PriorArg.noneArg PriorArg.noneArg =
      Except.ok (some fun _ => (0 : ℚ), some fun _ => Qinf.inf) := rfl

/-- C2 is false of the code: passing `prior_mu`/`prior_sigma` sequences
whose lengths differ from `width = 2` makes `_validate_priors` complete
silently with both attributes left unset (the `else: raise` in the
source is attached to the `isinstance` test, not the length test),
instead of raising the "cannot parse prior" `ValueError`. -/
theorem C2_wrong_length_completes_silently :
    Generator.validate_priors 2 (PriorArg.seq [(1 : ℚ)])
        (PriorArg.seq [Qinf.fin 1, Qinf.fin 1, Qinf.fin 1]) =
      Except.ok (none, none) := rfl

/-- C5: whenever the flattened element count of the data differs from
the design matrix's row count, `_fit` raises the shape-mismatch
`ValueError` immediately, before any state is assigned or any fit
result computed. -/
theorem C5_shape_mismatch_raises {m w : ℕ} (st : GenState w) (shape : List ℕ)
    (data : Fin shape.prod → ℚ) (errors : Option (Fin m → ℚ)) (mask : Option (Fin m → Bool))
    (X : Matrix (Fin m) (Fin w) ℚ) (h : shape.prod ≠ m) :
    Generator._fit st shape data errors mask X =
      (st, Except.error (PyErr.valueError ("Data must have shape " ++ toString m))) := by
  unfold Generator._fit
  rw [dif_neg h]

/-- C5 witness: a fit of shape-(2,) data against a 1-row design matrix
raises the shape-mismatch error and leaves the state unchanged. -/
theorem C5_shape_mismatch_raises_witness :
    ([2].prod ≠ 1) ∧
      Generator._fit st0 [2] (fun _ => 1) none none
          (Matrix.of fun _ _ => (1 : ℚ) : Matrix (Fin 1) (Fin 1) ℚ) =
        (st0, Except.error (PyErr.valueError ("Data must have shape " ++ toString 1))) :=
  ⟨by decide, C5_shape_mismatch_raises st0 [2] (fun _ => 1) none none
    (Matrix.of fun _ _ => (1 : ℚ) : Matrix (Fin 1) (Fin 1) ℚ) (by decide)⟩

/-- C6: `format_significant_figures` returns the fixed placeholder pair
(and does not raise) whenever either argument is infinite or nan, and
for finite arguments with error exactly 0 it formats both values with
0 decimal places. -/
theorem C6_placeholder_and_zero_error (mean error : PyFloat) (q : ℚ)
    (h : (mean.isinf || error.isinf || mean.isnan || error.isnan) = true) :
    format_significant_figures mean error = Except.ok SigFigs.placeholder ∧
      ∃ fm fe, format_significant_figures (PyFloat.fin q) (PyFloat.fin 0) =
          Except.ok (SigFigs.pair fm fe) ∧ fm.decimals = 0 ∧ fe.decimals = 0 := by
  constructor
  · unfold format_significant_figures
    rw [if_pos h]
  · exact ⟨_, _, rfl, rfl, rfl⟩

/-- C6 witness: a nan mean yields the placeholder without raising, and
a zero error yields a 0-decimal-place pair. -/
theorem C6_placeholder_and_zero_error_witness :
    ((PyFloat.nan.isinf || (PyFloat.fin 1).isinf || PyFloat.nan.isnan ||
        (PyFloat.fin 1).isnan) = true) ∧
      (format_significant_figures PyFloat.nan (PyFloat.fin 1) =
          Except.ok SigFigs.placeholder ∧
        ∃ fm fe, format_significant_figures (PyFloat.fin 3) (PyFloat.fin 0) =
            Except.ok (SigFigs.pair fm fe) ∧ fm.decimals = 0 ∧ fe.decimals = 0) :=
  ⟨by decide, C6_placeholder_and_zero_error PyFloat.nan (PyFloat.fin 1) 3 (by decide)⟩

/-- C10: for every finite mean and every finite error of absolute value
at least 10, the computed precision `-floor(log10(|error|))` is
negative, the fixed-point format specifier is invalid, and
`format_significant_figures` raises rather than returning a pair. -/
theorem C10_large_error_raises (a e : ℚ) (h : 10 ≤ |e|) :
    format_significant_figures (PyFloat.fin a) (PyFloat.fin e) =
      Except.error (PyErr.valueError "Format specifier missing precision") := by
  have he : e ≠ 0 := by
    intro h0
    rw [h0] at h
    norm_num at h
  have hlog : 1 ≤ Int.log 10 |e| := by
    have h10 : (10 : ℚ) ^ (1 : ℤ) ≤ |e| := by simpa using h
    exact (Int.zpow_le_iff_le_log (by norm_num) (by positivity)).mp h10
  have hneg : ¬(0 : ℤ) ≤ -(Int.log 10 |e|) := by omega
  unfold format_significant_figures
  rw [if_neg (by simp [PyFloat.isinf, PyFloat.isnan])]
  simp only [PyFloat.toRat, if_neg he]
  rw [formatFixed, if_neg hneg]

/-- C10 witness: mean 0 with error 10 raises the formatting error. -/
theorem C10_large_error_raises_witness :
    (10 ≤ |(10 : ℚ)|) ∧
      format_significant_figures (PyFloat.fin 0) (PyFloat.fin 10) =
        Except.error (PyErr.valueError "Format specifier missing precision") :=
  ⟨by norm_num, C10_large_error_raises 0 10 (by norm_num)⟩

/-- C9 counterexample: with `prior_sigma` exactly 0 the division's
special values do NOT propagate into the right-hand side: `1/0² = inf`
is coerced by `np.nan_to_num` to the largest finite float and
`0/0² = nan` is coerced to 0, so the stored term is finite (neither
infinite nor nan), contrary to the claim. -/
theorem C9_zero_sigma_coerced_counterexample :
    priorRhsTerm (PyFloat.fin 1) (PyFloat.fin 0) = PyFloat.fin maxFloat ∧
      priorRhsTerm (PyFloat.fin 0) (PyFloat.fin 0) = PyFloat.fin 0 ∧
      (PyFloat.fin maxFloat).isinf = false ∧ (PyFloat.fin maxFloat).isnan = false := by
  refine ⟨?_, ?_, rfl, rfl⟩ <;>
    simp [priorRhsTerm, PyFloat.mul, PyFloat.div, npNanToNum]

/-- C9 amended: the prior term `nan_to_num(prior_mu/prior_sigma²)`
contributes exactly 0 for every coefficient whose `prior_sigma` is
infinite; when `prior_sigma` is exactly 0, `nan_to_num` coerces the
division's infinity to the largest finite float (`±1.7976931348623157e308`)
and its nan to 0, so no infinities or NaNs propagate into the result. -/
theorem C9_prior_term (mu sigma : PyFloat) (q : ℚ) (h : sigma.isinf = true) :
    priorRhsTerm mu sigma = PyFloat.fin 0 ∧
      priorRhsTerm (PyFloat.fin q) (PyFloat.fin 0) =
        PyFloat.fin (if q = 0 then 0 else if 0 < q then maxFloat else -maxFloat) := by
  constructor
  · cases sigma <;> simp [PyFloat.isinf] at h <;> cases mu <;>
      simp [priorRhsTerm, PyFloat.mul, PyFloat.div, npNanToNum]
  · by_cases hq : q = 0
    · simp [priorRhsTerm, PyFloat.mul, PyFloat.div, npNanToNum, hq]
    · by_cases hq' : 0 < q <;>
        simp [priorRhsTerm, PyFloat.mul, PyFloat.div, npNanToNum, hq, hq']

/-- C9 witness: an infinite sigma contributes exactly 0, and a zero
sigma with mean 2 stores the coerced maximal float. -/
theorem C9_prior_term_witness :
    (PyFloat.inf.isinf = true) ∧
      (priorRhsTerm (PyFloat.fin 7) PyFloat.inf = PyFloat.fin 0 ∧
        priorRhsTerm (PyFloat.fin 2) (PyFloat.fin 0) =
          PyFloat.fin (if (2 : ℚ) = 0 then 0 else if 0 < (2 : ℚ) then maxFloat else -maxFloat)) :=
  ⟨rfl, C9_prior_term (PyFloat.fin 7) PyFloat.inf 2 rfl⟩

/-- C8: the current-best coefficients `mu`/`sigma` resolve to
`fit_mu`/`fit_sigma` when those are set and fall back to
`prior_mu`/`prior_sigma` when unset; consequently `evaluate` on an
unfitted generator multiplies the design matrix by the prior mean. -/
theorem C8_mu_sigma_resolution {m w : ℕ} (st : GenState w) (f : Fin w → ℚ)
    (g : Fin w → Qinf) (X : Matrix (Fin m) (Fin w) ℚ) :
    (st.fit_mu = some f → Generator.mu st = f) ∧
      (st.fit_mu = none → Generator.mu st = st.prior_mu) ∧
      (st.fit_sigma = some g → Generator.sigma st = g) ∧
      (st.fit_sigma = none → Generator.sigma st = st.prior_sigma) ∧
      (st.fit_mu = none → (Generator.evaluate st X).vec = X.mulVec st.prior_mu) := by
  refine ⟨?_, ?_, ?_, ?_, ?_⟩ <;> intro h
  · simp [Generator.mu, h]
  · simp [Generator.mu, h]
  · simp [Generator.sigma, h]
  · simp [Generator.sigma, h]
  · have hmu : Generator.mu st = st.prior_mu := by simp [Generator.mu, h]
    unfold Generator.evaluate
    cases st.data_shape with
    | none => simp [EvalOut.vec, hmu]
    | some ds => by_cases hm : m = ds.prod <;> simp [EvalOut.vec, hmu, hm]

/-- C8 witness: on the freshly constructed generator `st0` (no fit),
`mu` falls back to the prior mean and `evaluate` returns the design
matrix times the prior mean. -/
theorem C8_mu_sigma_resolution_witness :
    (st0.fit_mu = none) ∧ Generator.mu st0 = st0.prior_mu ∧
      (Generator.evaluate st0
            (Matrix.of fun _ _ => (1 : ℚ) : Matrix (Fin 3) (Fin 1) ℚ)).vec =
        (Matrix.of fun _ _ => (1 : ℚ) : Matrix (Fin 3) (Fin 1) ℚ).mulVec st0.prior_mu :=
  ⟨rfl,
    (C8_mu_sigma_resolution st0 (fun _ => 0) (fun _ => Qinf.inf)
      (Matrix.of fun _ _ => (1 : ℚ) : Matrix (Fin 3) (Fin 1) ℚ)).2.1 rfl,
    (C8_mu_sigma_resolution st0 (fun _ => 0) (fun _ => Qinf.inf)
      (Matrix.of fun _ _ => (1 : ℚ) : Matrix (Fin 3) (Fin 1) ℚ)).2.2.2.2 rfl⟩

/-- C7: on a fitted generator (stored `data_shape`), `evaluate` returns
the design matrix times the current coefficients reshaped to
`data_shape` exactly when the design matrix's row count equals the
flattened element count of the fitted data, and the flat vector when
the counts differ. -/
theorem C7_evaluate_reshape {m w : ℕ} (st : GenState w) (ds : List ℕ)
    (X : Matrix (Fin m) (Fin w) ℚ) (h : st.data_shape = some ds) :
    (m = ds.prod →
        Generator.evaluate st X = EvalOut.reshaped ds (X.mulVec (Generator.mu st))) ∧
      (m ≠ ds.prod →
        Generator.evaluate st X = EvalOut.flat (X.mulVec (Generator.mu st))) := by
  constructor <;> intro hm <;> unfold Generator.evaluate <;> rw [h] <;> simp [hm]

/-- C7 witness: the fitted generator `stFitted` (fitted on shape-(2,)
data) evaluated on a 2-row design matrix returns the reshaped output. -/
theorem C7_evaluate_reshape_witness :
    (stFitted.data_shape = some [2]) ∧ ((2 : ℕ) = [2].prod) ∧
      Generator.evaluate stFitted
          (Matrix.of fun _ _ => (1 : ℚ) : Matrix (Fin 2) (Fin 1) ℚ) =
        EvalOut.reshaped [2]
          ((Matrix.of fun _ _ => (1 : ℚ) : Matrix (Fin 2) (Fin 1) ℚ).mulVec
            (Generator.mu stFitted)) :=
  ⟨rfl, by decide,
    (C7_evaluate_reshape stFitted [2]
      (Matrix.of fun _ _ => (1 : ℚ) : Matrix (Fin 2) (Fin 1) ℚ) rfl).1 (by decide)⟩

/-- C3 counterexample: a fit whose normal-equation matrix is singular
(zero design column with an uninformative prior) raises `LinAlgError`
from the inversion, yet the instance's `data_shape`, which was `None`
before the call, has already been overwritten with the new data's
shape: the raise does NOT leave the instance state unchanged. -/
theorem C3_state_mutated_on_raise_counterexample :
    (Generator._fit st0 [1] (fun _ => 1) none none Xzero).2 =
        Except.error PyErr.linAlgError ∧
      (Generator._fit st0 [1] (fun _ => 1) none none Xzero).1.data_shape = some [1] ∧
      st0.data_shape = none := by
  have hA : (Generator.normalMatrix Xzero
      ((none : Option (Fin 1 → ℚ)).getD fun _ => 1)
      ((none : Option (Fin 1 → Bool)).getD fun _ => true) st0.prior_sigma).det = 0 := by
    rw [Matrix.det_fin_one]
    simp [Generator.normalMatrix, Xzero, st0, qinfInvSq]
  have hfit : Generator._fit st0 [1] (fun _ => 1) none none Xzero =
      ({ st0 with data_shape := some [1] }, Except.error PyErr.linAlgError) := by
    unfold Generator._fit
    rw [dif_pos (show List.prod [1] = 1 from rfl)]
    simp only [npLinalgInv_eq_error hA]
  rw [hfit]
  exact ⟨rfl, rfl, rfl⟩

/-- C3 amended: `_fit`'s shape check precedes every assignment (a
shape-mismatch failure leaves the instance unchanged, see the C5
theorem), but `data_shape` is assigned before the inversion: a
linear-algebra failure on a singular normal-equation matrix propagates
to the caller with `data_shape` already updated to the new data's
shape, while `cov`, `fit_mu` and `fit_sigma` are untouched. -/
theorem C3_fit_state_on_lin_alg_failure {m w : ℕ} (st : GenState w) (shape : List ℕ)
    (data : Fin shape.prod → ℚ) (errors : Option (Fin m → ℚ)) (mask : Option (Fin m → Bool))
    (X : Matrix (Fin m) (Fin w) ℚ) (hshape : shape.prod = m)
    (hdet : (Generator.normalMatrix X (errors.getD fun _ => 1) (mask.getD fun _ => true)
        st.prior_sigma).det = 0) :
    Generator._fit st shape data errors mask X =
      ({ st with data_shape := some shape }, Except.error PyErr.linAlgError) := by
  unfold Generator._fit
  rw [dif_pos hshape]
  simp only [npLinalgInv_eq_error hdet]

/-- C3 witness: the concrete singular fit of the counterexample, via
the amended theorem. -/
theorem C3_fit_state_on_lin_alg_failure_witness :
    Generator._fit st0 [1] (fun _ => 1) none none Xzero =
      ({ st0 with data_shape := some [1] }, Except.error PyErr.linAlgError) :=
  C3_fit_state_on_lin_alg_failure st0 [1] (fun _ => 1) none none Xzero rfl
    (by
      rw [Matrix.det_fin_one]
      simp [Generator.normalMatrix, Xzero, st0, qinfInvSq])

/-- C1: under the shape precondition (and with every prior sigma
nonzero, the regime in which the exact model tracks the float code, and
a nonsingular normal-equation matrix, the regime in which `np.linalg`
does not raise), `_fit` forms the normal-equation matrix
`A = X[mask]ᵗ·diag(1/errors²)·X[mask] + diag(1/prior_sigma²)`, stores as
`cov` a genuine two-sided inverse of `A`, and returns a posterior mean
solving `A · fit_mu = b` for the weighted right-hand side `b`, together
with `fit_sigma` equal to the square root of the diagonal of `cov`. -/
theorem C1_fit_normal_equations {m w : ℕ} (st : GenState w) (shape : List ℕ)
    (data : Fin shape.prod → ℚ) (errors : Option (Fin m → ℚ)) (mask : Option (Fin m → Bool))
    (X : Matrix (Fin m) (Fin w) ℚ) (hshape : shape.prod = m)
    (hsig : ∀ i, st.prior_sigma i ≠ Qinf.fin 0)
    (hdet : (Generator.normalMatrix X (errors.getD fun _ => 1) (mask.getD fun _ => true)
        st.prior_sigma).det ≠ 0) :
    ∃ covM fitMu,
      Generator._fit st shape data errors mask X =
        ({ st with data_shape := some shape, cov := some covM }, Except.ok fitMu) ∧
      Generator.normalMatrix X (errors.getD fun _ => 1) (mask.getD fun _ => true)
          st.prior_sigma =
        normalMatrixSpec X (errors.getD fun _ => 1) (mask.getD fun _ => true)
          st.prior_sigma ∧
      covM * Generator.normalMatrix X (errors.getD fun _ => 1) (mask.getD fun _ => true)
          st.prior_sigma = 1 ∧
      Generator.normalMatrix X (errors.getD fun _ => 1) (mask.getD fun _ => true)
          st.prior_sigma * covM = 1 ∧
      (Generator.normalMatrix X (errors.getD fun _ => 1) (mask.getD fun _ => true)
          st.prior_sigma).mulVec fitMu =
        normalRhsSpec X (fun r => data (Fin.cast hshape.symm r)) (errors.getD fun _ => 1)
          (mask.getD fun _ => true) st.prior_mu st.prior_sigma ∧
      ∀ i, 0 ≤ covM i i →
        Generator.fitSigmaOf covM i ^ 2 = ((covM i i : ℚ) : ℝ) ∧
          0 ≤ Generator.fitSigmaOf covM i := by
  have hinv : npLinalgInv (Generator.normalMatrix X (errors.getD fun _ => 1)
      (mask.getD fun _ => true) st.prior_sigma) =
      Except.ok ((Generator.normalMatrix X (errors.getD fun _ => 1)
        (mask.getD fun _ => true) st.prior_sigma).det⁻¹ •
          (Generator.normalMatrix X (errors.getD fun _ => 1)
            (mask.getD fun _ => true) st.prior_sigma).adjugate) :=
    npLinalgInv_eq_ok hdet
  have hsol : npLinalgSolve (Generator.normalMatrix X (errors.getD fun _ => 1)
      (mask.getD fun _ => true) st.prior_sigma)
      (Generator.normalRhs X (fun r => data (Fin.cast hshape.symm r))
        (errors.getD fun _ => 1) (mask.getD fun _ => true) st.prior_mu st.prior_sigma) =
      Except.ok ((Generator.normalMatrix X (errors.getD fun _ => 1)
        (mask.getD fun _ => true) st.prior_sigma).det⁻¹ •
          (Generator.normalMatrix X (errors.getD fun _ => 1)
            (mask.getD fun _ => true) st.prior_sigma).adjugate.mulVec
            (Generator.normalRhs X (fun r => data (Fin.cast hshape.symm r))
              (errors.getD fun _ => 1) (mask.getD fun _ => true) st.prior_mu
              st.prior_sigma)) :=
    npLinalgSolve_eq_ok _ hdet
  refine
    ⟨(Generator.normalMatrix X (errors.getD fun _ => 1) (mask.getD fun _ => true)
        st.prior_sigma).det⁻¹ •
      (Generator.normalMatrix X (errors.getD fun _ => 1) (mask.getD fun _ => true)
        st.prior_sigma).adjugate,
      (Generator.normalMatrix X (errors.getD fun _ => 1) (mask.getD fun _ => true)
          st.prior_sigma).det⁻¹ •
        (Generator.normalMatrix X (errors.getD fun _ => 1) (mask.getD fun _ => true)
            st.prior_sigma).adjugate.mulVec
          (Generator.normalRhs X (fun r => data (Fin.cast hshape.symm r))
            (errors.getD fun _ => 1) (mask.getD fun _ => true) st.prior_mu st.prior_sigma),
      ?_, normalMatrix_eq_spec X _ _ _, ?_, ?_, ?_, ?_⟩
  · unfold Generator._fit
    rw [dif_pos hshape]
    simp only [hinv, hsol]
  · rw [Matrix.smul_mul, Matrix.adjugate_mul, smul_smul, inv_mul_cancel₀ hdet, one_smul]
  · rw [Matrix.mul_smul, Matrix.mul_adjugate, smul_smul, inv_mul_cancel₀ hdet, one_smul]
  · rw [Matrix.mulVec_smul, Matrix.mulVec_mulVec, Matrix.mul_adjugate,
      Matrix.smul_mulVec_assoc, Matrix.one_mulVec, smul_smul, inv_mul_cancel₀ hdet,
      one_smul, normalRhs_eq_spec]
  · intro i hi
    refine ⟨?_, Real.sqrt_nonneg _⟩
    have h0 : (0 : ℝ) ≤ (((Generator.normalMatrix X (errors.getD fun _ => 1)
        (mask.getD fun _ => true) st.prior_sigma).det⁻¹ •
          (Generator.normalMatrix X (errors.getD fun _ => 1)
            (mask.getD fun _ => true) st.prior_sigma).adjugate) i i : ℚ) := by
      exact_mod_cast hi
    simpa [Generator.fitSigmaOf] using Real.sq_sqrt h0

/-- C1 witness: fitting the width-1 constant model (2-row design matrix
of ones) to the data `[1, 2]` with default errors, mask and priors
succeeds, stores `cov` and returns the posterior mean, and the stored
`cov` is a two-sided inverse of the normal-equation matrix. -/
theorem C1_fit_normal_equations_witness :
    ∃ covM fitMu,
      Generator._fit st0 [2] ![1, 2] none none Xones =
        ({ st0 with data_shape := some [2], cov := some covM }, Except.ok fitMu) ∧
      covM * Generator.normalMatrix Xones ((none : Option (Fin 2 → ℚ)).getD fun _ => 1)
          ((none : Option (Fin 2 → Bool)).getD fun _ => true) st0.prior_sigma = 1 := by
  obtain ⟨covM, fitMu, h1, _, h3, _⟩ :=
    C1_fit_normal_equations st0 [2] ![1, 2] none none Xones rfl (by decide)
      (by
        rw [Matrix.det_fin_one]
        norm_num [Generator.normalMatrix, Xones, st0, qinfInvSq, Fin.sum_univ_two])
  exact ⟨covM, fitMu, h1, h3⟩

end Lamatrix
